import Mathlib

/-!
Shallow embedding of SpinnyLock (src/src/main.rs), a Bevy 0.15 arcade game:
a needle line rotates inside a ring and the player presses Space ("commit")
while the needle overlaps a target wedge to score.

Modelling notes, justified against the source:

* All speed arithmetic in the source is f32, but every value the game ever
  computes with is a small multiple of 0.5 (initial speed 1.0, increment 0.5,
  sign flip by multiplication with -1.0, comparison against 10.0).  These are
  all exactly representable in f32 and the operations are exact on them, so
  rationals are a faithful carrier.  Angles are likewise carried as rationals;
  the trigonometric functions used for vertex positions are taken as
  parameters (the engine's f32 sin and cos), since no claim depends on their
  values.

* Score is a u32 in the source.  Wraparound would require 2^32 successful
  commits in one process run (and a debug build aborts on the overflowing
  increment); it is outside the modelled range, so Score is carried as Nat.

* The four gameplay systems are registered in one tuple,
  add_systems(Update, (reverse_rotate_direction, rotate_line,
  move_anulus_segment, check_for_collision).run_if(in_state(Playing))),
  with no .chain()/.before()/.after() constraints: Bevy schedules a plain
  tuple in an arbitrary order each frame.  A tick therefore takes the order
  in which the four systems run as an input (a permutation of the four).

* Bevy change detection: Res::is_changed is true when the resource was
  written (or first inserted) since the last run of the querying system, and
  the querying system's own last-run marker advances every time it runs.
  This is carried as the scoreChanged flag: set when reverse_rotate_direction
  increments Score, cleared whenever move_anulus_segment runs, and initially
  true because the insertion of the Score resource during Startup counts as
  a change for the first Update run.

* NextState::set(GameOver) queues a transition that Bevy applies in the
  StateTransition schedule before the next frame's Update systems; within
  the frame that queued it, the in_state(Playing) run conditions still see
  Playing.  This is the pendingGameOver flag, applied at the start of the
  next tick.

* toggle_fullscreen and game_over_screen touch only window mode and UI text,
  none of the modelled state, and are omitted; the score-text writes inside
  reverse_rotate_direction are presentation only and likewise omitted.
-/

set_option linter.unusedVariables false

namespace SpinnyLock

/-- The GameState enum of the source (derive States): Playing or GameOver. -/
inductive GameState
  | Playing
  | GameOver
deriving DecidableEq, Repr

/-- bevy_rapier2d CollisionEvent: Started or Stopped, tagged with the two
entity ids (the source's handler prints but otherwise ignores them). -/
inductive CollisionEvent
  | Started (entity1 entity2 : Nat)
  | Stopped (entity1 entity2 : Nat)
deriving DecidableEq, Repr

/-- The mutable state the gameplay systems read and write: the State
resource (GameState), the Score resource (Score.0), the needle's
RotationSpeed.0, the SegmentsAreIntersecting resource, the z-rotation
angles of the TargetZone and needle Transforms, the queued NextState
transition, and the change-detection marker on Score observed by
move_anulus_segment. -/
structure World where
  state : GameState
  score : Nat
  speed : ℚ
  intersecting : Bool
  targetAngle : ℚ
  needleAngle : ℚ
  pendingGameOver : Bool
  scoreChanged : Bool
deriving DecidableEq, Repr

/-- check_for_collision (main.rs 50-66): drains this tick's CollisionEvent
batch in order; each Started event stores true, each Stopped stores false,
into SegmentsAreIntersecting, ignoring which entities the event names. -/
def check_for_collision (events : List CollisionEvent) (w : World) : World :=
  { w with
    intersecting :=
      events.foldl
        (fun flag e =>
          match e with
          | CollisionEvent.Started _ _ => true
          | CollisionEvent.Stopped _ _ => false)
        w.intersecting }

/-- reverse_rotate_direction (main.rs 99-121): on a just-pressed Space, for
the single needle entity, multiply RotationSpeed.0 by -1; then if
SegmentsAreIntersecting.0 holds, increment Score (marking it changed for
change detection), else queue NextState GameOver. -/
def reverse_rotate_direction (just_pressed : Bool) (w : World) : World :=
  if just_pressed then
    let w1 := { w with speed := w.speed * (-1) }
    if w1.intersecting then
      { w1 with score := w1.score + 1, scoreChanged := true }
    else
      { w1 with pendingGameOver := true }
  else w

/-- rotate_line (main.rs 68-72): compose the needle Transform rotation with
a z-rotation by -speed * dt; composing z-rotations adds their angles. -/
def rotate_line (dt : ℚ) (w : World) : World :=
  { w with needleAngle := w.needleAngle + -w.speed * dt }

/-- move_anulus_segment (main.rs 123-142): return early unless the Score
resource changed since this system's last run (that run marker advances on
every run, so the flag clears regardless of the branch); otherwise set the
TargetZone rotation to the rng draw from gen_range(0.0..2.0*PI), then add
0.5 to the signed RotationSpeed.0 whenever it is below 10.0. -/
def move_anulus_segment (random_angle : ℚ) (w : World) : World :=
  let w1 :=
    if w.scoreChanged then
      let w2 := { w with targetAngle := random_angle }
      { w2 with speed := if w2.speed < 10 then w2.speed + 1/2 else w2.speed }
    else w
  { w1 with scoreChanged := false }

/-- The four gameplay systems registered for the Update schedule. -/
inductive Sys
  | check
  | reverse
  | rotate
  | move
deriving DecidableEq, Repr

/-- Per-tick external inputs: the collision-event batch, whether Space was
just pressed, the rng draw move_anulus_segment would use, the frame delta
time, and the order in which Bevy's executor happens to run the four
systems this frame (unconstrained in the source: the tuple carries no
chain/before/after ordering). -/
structure TickInput where
  events : List CollisionEvent
  space_pressed : Bool
  random_angle : ℚ
  dt : ℚ
  order : List Sys
deriving Repr

/-- Dispatch one system on the world with this tick's inputs. -/
def runSys (i : TickInput) (sy : Sys) (w : World) : World :=
  match sy with
  | Sys.check => check_for_collision i.events w
  | Sys.reverse => reverse_rotate_direction i.space_pressed w
  | Sys.rotate => rotate_line i.dt w
  | Sys.move => move_anulus_segment i.random_angle w

/-- Run a list of systems left to right. -/
def runSystems (i : TickInput) (order : List Sys) (w : World) : World :=
  order.foldl (fun t sy => runSys i sy t) w

/-- The multiset of systems Bevy runs each Update frame while Playing
(main.rs 35-44); their relative order is not constrained by the source. -/
def updateSystems : List Sys :=
  [Sys.check, Sys.reverse, Sys.rotate, Sys.move]

/-- Bevy's StateTransition schedule: apply a queued NextState::set before
the frame's Update systems run. -/
def apply_state_transition (w : World) : World :=
  if w.pendingGameOver then
    { w with state := GameState.GameOver, pendingGameOver := false }
  else w

/-- One frame: apply any queued state transition, then, if the state is
Playing, run the four gameplay systems in this frame's order (the run_if
condition reads the State resource, which only changes in StateTransition,
so all four systems of a frame agree on it). -/
def tick (i : TickInput) (w : World) : World :=
  let w1 := apply_state_transition w
  if w1.state = GameState.Playing then runSystems i i.order w1 else w1

/-- A whole run: fold tick over a list of per-frame inputs. -/
def run (inputs : List TickInput) (w : World) : World :=
  inputs.foldl (fun t i => tick i t) w

/-- The world after the Startup systems (setup, create_annulus_segment,
create_rotating_line): state Playing, Score 0, RotationSpeed 1.0, no
overlap recorded, both Transforms at the identity z-rotation, no queued
transition, and the Score resource freshly inserted, which Bevy change
detection reports as changed to the first run of move_anulus_segment. -/
def initialWorld : World :=
  { state := GameState.Playing
    score := 0
    speed := 1
    intersecting := false
    targetAngle := 0
    needleAngle := 0
    pendingGameOver := false
    scoreChanged := true }

/-- Exact value of the f32 constant std::f32::consts::PI used by the
source for the rng range and angle conversions. -/
def PI32 : ℚ := 13176795 / 4194304

/-- Contract of rand's gen_range(0.0..2.0*PI): the draw lies in the
half-open interval from 0 to two times the f32 pi constant. -/
def gen_range_ok (r : ℚ) : Prop := 0 ≤ r ∧ r < 2 * PI32

/-- f32::to_radians: degrees times pi over 180.  The f32 rounding of this
product is immaterial here: no claim depends on coordinate values. -/
def to_radians (x : ℚ) : ℚ := x * (PI32 / 180)

/-- Vertex fan of create_annulus_segment (main.rs 239-244): for i in
0..=resolution, push the inner-radius and the outer-radius point at angle
start_angle + i * angle_increment.  The engine's f32 sine and cosine are
taken as parameters. -/
def annulus_segment_vertices (sin cos : ℚ → ℚ) (resolution : Nat)
    (start_angle angle_increment r_inner r_outer : ℚ) : List (ℚ × ℚ × ℚ) :=
  (List.range (resolution + 1)).foldl
    (fun vertices (i : Nat) =>
      let angle := start_angle + (i : ℚ) * angle_increment
      vertices ++
        [(sin angle * r_inner, cos angle * r_inner, 0),
         (sin angle * r_outer, cos angle * r_outer, 0)])
    []

/-- Triangle index list of create_annulus_segment (main.rs 248-252): for i
in (0..resolution * 2 - 1).step_by(2), extend with [i, i+2, i+1] and
[i+1, i+2, i+3].  The subtraction here is the truncated Nat one, which
agrees with the Rust u32 value for every resolution at least 1; the
resolution = 0 underflow is handled at the caller. -/
def annulus_segment_indices (resolution : Nat) : List Nat :=
  ((List.range (resolution * 2 - 1)).filter (fun i => i % 2 = 0)).foldl
    (fun indices i => indices ++ [i, i + 2, i + 1] ++ [i + 1, i + 2, i + 3])
    []

/-- The triangle list handed to Collider::trimesh and to the mesh indices:
the flat index list chunked into triples (main.rs 258-262), so the number
of triangles is the index count divided by three. -/
def triangle_count (indices : List Nat) : Nat := indices.length / 3

/-- create_annulus_segment (main.rs 222-278), parameterized by the
tessellation resolution and angular half-width in degrees that the source
hardcodes to 5 and 25.0: build the vertex fan and the triangle index list
for the target wedge at radii 43 and 52, used both as the mesh and,
reinterpreted, as the trimesh sensor collider.  The source validates
nothing: no InvalidGeometry (nor any other) error value exists anywhere in
the program.  The only abnormal case is implicit: with resolution = 0 the
u32 index-loop bound resolution * 2 - 1 underflows, which aborts the
process (debug overflow check), modelled as none; every other input
constructs geometry unconditionally, a zero angular span included. -/
def create_annulus_segment (sin cos : ℚ → ℚ) (resolution : Nat)
    (radius_extend : ℚ) : Option (List (ℚ × ℚ × ℚ) × List Nat) :=
  if resolution = 0 then none
  else
    let start_angle := -(to_radians radius_extend)
    let end_angle := to_radians radius_extend
    let angle_increment := (end_angle - start_angle) / (resolution : ℚ)
    some
      (annulus_segment_vertices sin cos resolution start_angle angle_increment 43 52,
       annulus_segment_indices resolution)

/-- Vertices of create_rotating_line (main.rs 184-189): for i in 0..=1 the
angle is minus or plus pi/64, with the inner and outer point at radii 40
and 55. -/
def rotating_line_vertices (sin cos : ℚ → ℚ) : List (ℚ × ℚ × ℚ) :=
  (List.range 2).foldl
    (fun vertices (i : Nat) =>
      let angle := if i = 1 then PI32 / 64 else -(PI32 / 64)
      vertices ++
        [(sin angle * 40, cos angle * 40, 0),
         (sin angle * 55, cos angle * 55, 0)])
    []

/-- Index list of create_rotating_line (main.rs 192): the single quad of
the needle as two triangles. -/
def rotating_line_indices : List Nat := [0, 2, 1, 2, 3, 1]

/-! ## Helper lemmas about the per-tick semantics -/

lemma runSystems_cons (i : TickInput) (sy : Sys) (o : List Sys) (w : World) :
    runSystems i (sy :: o) w = runSystems i o (runSys i sy w) := rfl

lemma runSystems_append (i : TickInput) (o1 o2 : List Sys) (w : World) :
    runSystems i (o1 ++ o2) w = runSystems i o2 (runSystems i o1 w) :=
  List.foldl_append _ _ _ _

lemma runSys_state (i : TickInput) (sy : Sys) (w : World) :
    (runSys i sy w).state = w.state := by
  cases sy with
  | check => rfl
  | reverse =>
      simp only [runSys, reverse_rotate_direction]
      split
      · split <;> rfl
      · rfl
  | rotate => rfl
  | move =>
      simp only [runSys, move_anulus_segment]
      split <;> rfl

lemma runSystems_state (i : TickInput) (o : List Sys) (w : World) :
    (runSystems i o w).state = w.state := by
  induction o generalizing w with
  | nil => rfl
  | cons sy o ih => rw [runSystems_cons, ih, runSys_state]

lemma reverse_score_eq (p : Bool) (w : World) :
    (reverse_rotate_direction p w).score =
      if p && w.intersecting then w.score + 1 else w.score := by
  cases p <;> cases h : w.intersecting <;> simp [reverse_rotate_direction, h]

lemma reverse_pending_eq (p : Bool) (w : World) :
    (reverse_rotate_direction p w).pendingGameOver =
      (w.pendingGameOver || (p && !w.intersecting)) := by
  cases p <;> cases h : w.intersecting <;> simp [reverse_rotate_direction, h]

lemma reverse_speed_eq (p : Bool) (w : World) :
    (reverse_rotate_direction p w).speed = if p then -w.speed else w.speed := by
  cases p <;> cases h : w.intersecting <;>
    simp [reverse_rotate_direction, h, mul_neg_one]

lemma reverse_intersecting_eq (p : Bool) (w : World) :
    (reverse_rotate_direction p w).intersecting = w.intersecting := by
  cases p <;> cases h : w.intersecting <;> simp [reverse_rotate_direction, h]

lemma reverse_targetAngle_eq (p : Bool) (w : World) :
    (reverse_rotate_direction p w).targetAngle = w.targetAngle := by
  cases p <;> cases h : w.intersecting <;> simp [reverse_rotate_direction, h]

lemma reverse_scoreChanged_eq (p : Bool) (w : World) :
    (reverse_rotate_direction p w).scoreChanged =
      (w.scoreChanged || (p && w.intersecting)) := by
  cases p <;> cases h : w.intersecting <;> simp [reverse_rotate_direction, h]

lemma move_not_changed (r : ℚ) (w : World) (h : w.scoreChanged = false) :
    move_anulus_segment r w = { w with scoreChanged := false } := by
  simp [move_anulus_segment, h]

lemma move_score_eq (r : ℚ) (w : World) :
    (move_anulus_segment r w).score = w.score := by
  simp only [move_anulus_segment]
  split <;> rfl

lemma move_pending_eq (r : ℚ) (w : World) :
    (move_anulus_segment r w).pendingGameOver = w.pendingGameOver := by
  simp only [move_anulus_segment]
  split <;> rfl

lemma runSys_score_mono (i : TickInput) (sy : Sys) (w : World) :
    w.score ≤ (runSys i sy w).score := by
  cases sy with
  | check => exact le_refl _
  | reverse => rw [runSys, reverse_score_eq]; split <;> simp
  | rotate => exact le_refl _
  | move => rw [runSys, move_score_eq]

lemma runSystems_score_mono (i : TickInput) (o : List Sys) (w : World) :
    w.score ≤ (runSystems i o w).score := by
  induction o generalizing w with
  | nil => exact le_refl _
  | cons sy o ih =>
      rw [runSystems_cons]
      exact le_trans (runSys_score_mono i sy w) (ih (runSys i sy w))

lemma runSys_score_pending (i : TickInput) (sy : Sys) (w : World)
    (h : sy ≠ Sys.reverse ∨ i.space_pressed = false) :
    (runSys i sy w).score = w.score ∧
      (runSys i sy w).pendingGameOver = w.pendingGameOver := by
  cases sy with
  | check => exact ⟨rfl, rfl⟩
  | reverse =>
      rcases h with h | h
      · exact absurd rfl h
      · rw [runSys, reverse_score_eq, reverse_pending_eq, h]
        simp
  | rotate => exact ⟨rfl, rfl⟩
  | move => exact ⟨move_score_eq _ _, move_pending_eq _ _⟩

lemma runSystems_score_pending (i : TickInput) (o : List Sys) (w : World)
    (h : Sys.reverse ∉ o ∨ i.space_pressed = false) :
    (runSystems i o w).score = w.score ∧
      (runSystems i o w).pendingGameOver = w.pendingGameOver := by
  induction o generalizing w with
  | nil => exact ⟨rfl, rfl⟩
  | cons sy o ih =>
      have hsy : sy ≠ Sys.reverse ∨ i.space_pressed = false := by
        rcases h with h | h
        · exact Or.inl fun he => h (he ▸ List.mem_cons_self _ _)
        · exact Or.inr h
      have ho : Sys.reverse ∉ o ∨ i.space_pressed = false := by
        rcases h with h | h
        · exact Or.inl fun he => h (List.mem_cons_of_mem _ he)
        · exact Or.inr h
      rw [runSystems_cons]
      obtain ⟨h1, h2⟩ := runSys_score_pending i sy w hsy
      obtain ⟨h3, h4⟩ := ih (runSys i sy w) ho
      exact ⟨h3.trans h1, h4.trans h2⟩

lemma perm_reverse_split (o : List Sys) (h : o.Perm updateSystems) :
    ∃ o1 o2, o = o1 ++ Sys.reverse :: o2 ∧ Sys.reverse ∉ o1 ∧ Sys.reverse ∉ o2 := by
  have hc : o.count Sys.reverse = 1 := by
    rw [h.count_eq]
    decide
  have hmem : Sys.reverse ∈ o := by
    rw [← List.count_pos_iff, hc]
    norm_num
  obtain ⟨o1, o2, rfl⟩ := List.append_of_mem hmem
  rw [List.count_append, List.count_cons_self] at hc
  refine ⟨o1, o2, rfl, ?_, ?_⟩
  · intro hmem1
    have h1 := (List.count_pos_iff (a := Sys.reverse)).mpr hmem1
    omega
  · intro hmem2
    have h2 := (List.count_pos_iff (a := Sys.reverse)).mpr hmem2
    omega

lemma apply_state_transition_score (w : World) :
    (apply_state_transition w).score = w.score := by
  simp only [apply_state_transition]
  split <;> rfl

lemma apply_state_transition_speed (w : World) :
    (apply_state_transition w).speed = w.speed := by
  simp only [apply_state_transition]
  split <;> rfl

lemma apply_state_transition_intersecting (w : World) :
    (apply_state_transition w).intersecting = w.intersecting := by
  simp only [apply_state_transition]
  split <;> rfl

lemma apply_state_transition_targetAngle (w : World) :
    (apply_state_transition w).targetAngle = w.targetAngle := by
  simp only [apply_state_transition]
  split <;> rfl

lemma apply_state_transition_scoreChanged (w : World) :
    (apply_state_transition w).scoreChanged = w.scoreChanged := by
  simp only [apply_state_transition]
  split <;> rfl

lemma apply_state_transition_pending (w : World) :
    (apply_state_transition w).pendingGameOver = false ∨
      apply_state_transition w = w := by
  simp only [apply_state_transition]
  split
  · exact Or.inl rfl
  · exact Or.inr rfl

lemma apply_state_transition_playing (w : World)
    (h : (apply_state_transition w).state = GameState.Playing) :
    w.state = GameState.Playing ∧ (apply_state_transition w).pendingGameOver = false ∧
      apply_state_transition w = w := by
  revert h
  simp only [apply_state_transition]
  split
  · intro h
    exact absurd h (by simp)
  · intro h
    rename_i hpend
    simp only [Bool.not_eq_true] at hpend
    exact ⟨h, hpend, rfl⟩

lemma tick_playing (i : TickInput) (w : World)
    (h : (apply_state_transition w).state = GameState.Playing) :
    tick i w = runSystems i i.order (apply_state_transition w) := by
  simp only [tick, h, if_true]

lemma tick_not_playing (i : TickInput) (w : World)
    (h : (apply_state_transition w).state ≠ GameState.Playing) :
    tick i w = apply_state_transition w := by
  simp only [tick, h, if_false]

/-- Shape of a commit tick: with exactly one reverse_rotate_direction in the
schedule and Space pressed, the score and the queued transition of the tick
are decided by the overlap flag stored at the moment reverse_rotate_direction
runs, that is, after the schedule segment preceding it. -/
lemma runSystems_commit (i : TickInput) (o1 o2 : List Sys) (t : World)
    (h1 : Sys.reverse ∉ o1) (h2 : Sys.reverse ∉ o2)
    (hpend : t.pendingGameOver = false) (hp : i.space_pressed = true) :
    (runSystems i (o1 ++ Sys.reverse :: o2) t).score =
      (if (runSystems i o1 t).intersecting then t.score + 1 else t.score) ∧
    (runSystems i (o1 ++ Sys.reverse :: o2) t).pendingGameOver =
      !(runSystems i o1 t).intersecting := by
  rw [runSystems_append, runSystems_cons]
  set m := runSystems i o1 t with hm
  obtain ⟨hms, hmp⟩ := runSystems_score_pending i o1 t (Or.inl h1)
  rw [← hm] at hms hmp
  have hrev : runSys i Sys.reverse m = reverse_rotate_direction i.space_pressed m := rfl
  obtain ⟨hos, hop⟩ :=
    runSystems_score_pending i o2 (runSys i Sys.reverse m) (Or.inl h2)
  rw [hos, hop, hrev, reverse_score_eq, reverse_pending_eq, hp, hms, hmp]
  cases m.intersecting <;> simp [hpend]

lemma apply_state_transition_gameOver (w : World) (h : w.state = GameState.GameOver) :
    apply_state_transition w = { w with pendingGameOver := false } := by
  obtain ⟨st, sc, sp, ii, ta, na, pg, sch⟩ := w
  simp only [World.state] at h
  subst h
  cases pg <;> rfl

lemma tick_gameOver (i : TickInput) (w : World) (h : w.state = GameState.GameOver) :
    tick i w = { w with pendingGameOver := false } := by
  rw [tick, apply_state_transition_gameOver w h]
  simp [h]

/-- Once the State resource holds GameOver nothing in the modelled state
ever changes again: the run_if gate skips all four gameplay systems, so
every later frame at most clears the already-applied queued transition. -/
lemma run_gameOver (inputs : List TickInput) (w : World)
    (h : w.state = GameState.GameOver) :
    (run inputs w).state = GameState.GameOver ∧
    (run inputs w).score = w.score ∧
    (run inputs w).speed = w.speed ∧
    (run inputs w).intersecting = w.intersecting ∧
    (run inputs w).targetAngle = w.targetAngle ∧
    (run inputs w).needleAngle = w.needleAngle ∧
    (run inputs w).scoreChanged = w.scoreChanged := by
  induction inputs generalizing w with
  | nil => exact ⟨h, rfl, rfl, rfl, rfl, rfl, rfl⟩
  | cons i is ih =>
      have hstep : run (i :: is) w = run is (tick i w) := rfl
      rw [hstep, tick_gameOver i w h]
      exact ih { w with pendingGameOver := false } h

lemma runSys_targetAngle_or (i : TickInput) (sy : Sys) (w : World) :
    (runSys i sy w).targetAngle = w.targetAngle ∨
      (runSys i sy w).targetAngle = i.random_angle := by
  cases sy with
  | check => exact Or.inl rfl
  | reverse => exact Or.inl (reverse_targetAngle_eq _ _)
  | rotate => exact Or.inl rfl
  | move =>
      simp only [runSys, move_anulus_segment]
      split
      · exact Or.inr rfl
      · exact Or.inl rfl

lemma runSystems_targetAngle_or (i : TickInput) (o : List Sys) (w : World) :
    (runSystems i o w).targetAngle = w.targetAngle ∨
      (runSystems i o w).targetAngle = i.random_angle := by
  induction o generalizing w with
  | nil => exact Or.inl rfl
  | cons sy o ih =>
      rw [runSystems_cons]
      rcases ih (runSys i sy w) with h | h
      · rcases runSys_targetAngle_or i sy w with h1 | h1
        · exact Or.inl (h.trans h1)
        · exact Or.inr (h.trans h1)
      · exact Or.inr h

/-- With the change-detection marker clear and the score untouched along
the whole schedule, move_anulus_segment never fires, so the target's
orientation survives the tick. -/
lemma runSystems_targetAngle_frozen (i : TickInput) (o : List Sys) (t : World)
    (hflag : t.scoreChanged = false)
    (hscore : (runSystems i o t).score = t.score) :
    (runSystems i o t).targetAngle = t.targetAngle := by
  induction o generalizing t with
  | nil => rfl
  | cons sy o ih =>
      rw [runSystems_cons] at hscore ⊢
      have hmono1 : t.score ≤ (runSys i sy t).score := runSys_score_mono i sy t
      have hmono2 : (runSys i sy t).score ≤ (runSystems i o (runSys i sy t)).score :=
        runSystems_score_mono i o (runSys i sy t)
      have hstep : (runSys i sy t).score = t.score := by omega
      have hkeep : (runSys i sy t).scoreChanged = false ∧
          (runSys i sy t).targetAngle = t.targetAngle := by
        cases sy with
        | check => exact ⟨hflag, rfl⟩
        | reverse =>
            cases hp : i.space_pressed with
            | false =>
                have hid : runSys i Sys.reverse t = t := by
                  simp [runSys, reverse_rotate_direction, hp]
                rw [hid]
                exact ⟨hflag, rfl⟩
            | true =>
                cases hint : t.intersecting with
                | true =>
                    exfalso
                    have hs : (runSys i Sys.reverse t).score = t.score + 1 := by
                      rw [runSys, reverse_score_eq, hp, hint]
                      simp
                    omega
                | false =>
                    constructor
                    · rw [runSys, reverse_scoreChanged_eq, hflag, hp, hint]
                      rfl
                    · exact reverse_targetAngle_eq _ _
        | rotate => exact ⟨hflag, rfl⟩
        | move =>
            rw [runSys, move_not_changed _ _ hflag]
            exact ⟨rfl, rfl⟩
      have hfin := ih (runSys i sy t) hkeep.1 (by rw [hscore, hstep])
      rw [hfin, hkeep.2]

/-! ## Helper lemmas about the geometry builders -/

lemma foldl_append_eq_flatMap {α β : Type} (f : α → List β) :
    ∀ (l : List α) (acc : List β),
      l.foldl (fun a x => a ++ f x) acc = acc ++ l.flatMap f := by
  intro l
  induction l with
  | nil => intro acc; simp
  | cons x l ih =>
      intro acc
      rw [List.foldl_cons, ih, List.flatMap_cons, List.append_assoc]

lemma foldl_append2_eq_flatMap {α β : Type} (f g : α → List β) :
    ∀ (l : List α) (acc : List β),
      l.foldl (fun a x => a ++ f x ++ g x) acc = acc ++ l.flatMap (fun x => f x ++ g x) := by
  intro l
  induction l with
  | nil => intro acc; simp
  | cons x l ih =>
      intro acc
      rw [List.foldl_cons, ih, List.flatMap_cons]
      simp [List.append_assoc]

lemma annulus_segment_vertices_eq (sin cos : ℚ → ℚ) (resolution : Nat)
    (start_angle angle_increment r_inner r_outer : ℚ) :
    annulus_segment_vertices sin cos resolution start_angle angle_increment r_inner r_outer =
      (List.range (resolution + 1)).flatMap (fun i =>
        [(sin (start_angle + (i : ℚ) * angle_increment) * r_inner,
          cos (start_angle + (i : ℚ) * angle_increment) * r_inner, 0),
         (sin (start_angle + (i : ℚ) * angle_increment) * r_outer,
          cos (start_angle + (i : ℚ) * angle_increment) * r_outer, 0)]) := by
  rw [annulus_segment_vertices]
  exact foldl_append_eq_flatMap _ _ _

lemma length_flatMap_const {α β : Type} (f : α → List β) (c : Nat)
    (hf : ∀ x, (f x).length = c) :
    ∀ l : List α, (l.flatMap f).length = c * l.length := by
  intro l
  induction l with
  | nil => simp
  | cons x l ih =>
      rw [List.flatMap_cons, List.length_append, ih, hf, List.length_cons, Nat.mul_succ]
      omega

lemma annulus_segment_vertices_length (sin cos : ℚ → ℚ) (resolution : Nat)
    (start_angle angle_increment r_inner r_outer : ℚ) :
    (annulus_segment_vertices sin cos resolution start_angle angle_increment
      r_inner r_outer).length = 2 * (resolution + 1) := by
  rw [annulus_segment_vertices_eq]
  have h2 := length_flatMap_const
    (fun i : Nat =>
      [(sin (start_angle + (i : ℚ) * angle_increment) * r_inner,
        cos (start_angle + (i : ℚ) * angle_increment) * r_inner, (0 : ℚ)),
       (sin (start_angle + (i : ℚ) * angle_increment) * r_outer,
        cos (start_angle + (i : ℚ) * angle_increment) * r_outer, (0 : ℚ))])
    2 (fun x => rfl) (List.range (resolution + 1))
  exact h2.trans (by rw [List.length_range])

lemma range_filter_even (m : Nat) :
    (List.range (2 * m + 1)).filter (fun i => i % 2 = 0) =
      (List.range (m + 1)).map (fun k => 2 * k) := by
  induction m with
  | zero => decide
  | succ m ih =>
      have hr : 2 * (m + 1) + 1 = (2 * m + 1) + 1 + 1 := by omega
      have h1 : ¬((2 * m + 1) % 2 = 0) := by omega
      have h2 : (2 * m + 1 + 1) % 2 = 0 := by omega
      rw [hr, List.range_succ, List.range_succ, List.filter_append, List.filter_append, ih]
      simp only [List.filter_singleton, h1, h2, decide_eq_true_eq, if_false, if_true,
        Bool.cond_decide]
      simp [List.range_succ, Nat.mul_add, Nat.mul_one]

lemma annulus_segment_indices_eq (resolution : Nat) :
    annulus_segment_indices resolution =
      ((List.range (resolution * 2 - 1)).filter (fun i => i % 2 = 0)).flatMap
        (fun i => [i, i + 2, i + 1] ++ [i + 1, i + 2, i + 3]) := by
  rw [annulus_segment_indices]
  exact foldl_append2_eq_flatMap _ _ _ _

lemma annulus_segment_indices_map (resolution : Nat) (h : 1 ≤ resolution) :
    annulus_segment_indices resolution =
      ((List.range resolution).map (fun k => 2 * k)).flatMap
        (fun i => [i, i + 2, i + 1] ++ [i + 1, i + 2, i + 3]) := by
  obtain ⟨m, rfl⟩ : ∃ m, resolution = m + 1 := ⟨resolution - 1, by omega⟩
  have hb : (m + 1) * 2 - 1 = 2 * m + 1 := by omega
  rw [annulus_segment_indices_eq, hb, range_filter_even]

lemma annulus_segment_indices_length (resolution : Nat) (h : 1 ≤ resolution) :
    (annulus_segment_indices resolution).length = 6 * resolution := by
  rw [annulus_segment_indices_map resolution h]
  have h6 := length_flatMap_const
    (fun i : Nat => [i, i + 2, i + 1] ++ [i + 1, i + 2, i + 3]) 6 (fun x => rfl)
    ((List.range resolution).map (fun k => 2 * k))
  rw [h6, List.length_map, List.length_range]

lemma annulus_segment_indices_bound (resolution : Nat) (h : 1 ≤ resolution) :
    ∀ j ∈ annulus_segment_indices resolution, j < 2 * (resolution + 1) := by
  intro j hj
  rw [annulus_segment_indices_map resolution h, List.mem_flatMap] at hj
  obtain ⟨i, hi, hji⟩ := hj
  rw [List.mem_map] at hi
  obtain ⟨k, hk, rfl⟩ := hi
  rw [List.mem_range] at hk
  simp only [List.cons_append, List.nil_append, List.mem_cons,
    List.not_mem_nil, or_false] at hji
  rcases hji with rfl | rfl | rfl | rfl | rfl | rfl <;> omega

lemma tick_score_mono (i : TickInput) (w : World) : w.score ≤ (tick i w).score := by
  by_cases hp : (apply_state_transition w).state = GameState.Playing
  · rw [tick_playing i w hp, ← apply_state_transition_score w]
    exact runSystems_score_mono i i.order (apply_state_transition w)
  · rw [tick_not_playing i w hp, apply_state_transition_score w]

lemma run_score_mono (inputs : List TickInput) (w : World) :
    w.score ≤ (run inputs w).score := by
  induction inputs generalizing w with
  | nil => exact le_refl _
  | cons i is ih =>
      have hstep : run (i :: is) w = run is (tick i w) := rfl
      rw [hstep]
      exact le_trans (tick_score_mono i w) (ih (tick i w))

lemma check_flag_eq (events : List CollisionEvent) : ∀ b : Bool,
    events.foldl
      (fun flag e =>
        match e with
        | CollisionEvent.Started _ _ => true
        | CollisionEvent.Stopped _ _ => false) b =
      (match events.getLast? with
       | none => b
       | some (CollisionEvent.Started _ _) => true
       | some (CollisionEvent.Stopped _ _) => false) := by
  induction events with
  | nil => intro b; rfl
  | cons e es ih =>
      intro b
      cases es with
      | nil => cases e <;> rfl
      | cons e2 es2 =>
          rw [List.foldl_cons, ih, List.getLast?_cons_cons]
          cases hlast : (e2 :: es2).getLast? with
          | none =>
              exfalso
              rw [List.getLast?_eq_none_iff] at hlast
              exact List.cons_ne_nil _ _ hlast
          | some e3 => cases e3 <;> simp [hlast]

/-! ## Concrete worlds and frame inputs used in the claim-level evaluations -/

/-- First frame from startup: the physics backend reports overlap begin and
the player presses Space; the executor happens to run check_for_collision
first and move_anulus_segment last. -/
def c1Input : TickInput :=
  { events := [CollisionEvent.Started 1 2]
    space_pressed := true
    random_angle := 1
    dt := 0
    order := [Sys.check, Sys.reverse, Sys.rotate, Sys.move] }

/-- First frame from startup with no input and no collision events at all. -/
def c2Input : TickInput :=
  { events := []
    space_pressed := false
    random_angle := 1
    dt := 0
    order := [Sys.check, Sys.reverse, Sys.rotate, Sys.move] }

/-- A quiet frame input used with a world whose change marker is clear. -/
def c2bInput : TickInput :=
  { events := []
    space_pressed := false
    random_angle := 7
    dt := 0
    order := [Sys.check, Sys.reverse, Sys.rotate, Sys.move] }

/-- A world one frame after the startup relocation has been consumed. -/
def c2bWorld : World := { initialWorld with scoreChanged := false }

/-- C5 trace, frame 1: overlap begins, Space pressed, order check, reverse,
rotate, move; the frame scores and leaves speed -1/2. -/
def c5Input1 : TickInput :=
  { events := [CollisionEvent.Started 1 2]
    space_pressed := true
    random_angle := 1
    dt := 0
    order := [Sys.check, Sys.reverse, Sys.rotate, Sys.move] }

/-- C5 trace, frame 2: Space pressed again, with the executor running
move_anulus_segment before reverse_rotate_direction this frame, so the
speed bump from this score is left pending; the frame ends at speed 1/2. -/
def c5Input2 : TickInput :=
  { events := []
    space_pressed := true
    random_angle := 2
    dt := 0
    order := [Sys.move, Sys.check, Sys.reverse, Sys.rotate] }

/-- C5 trace, frame 3: Space pressed at speed 1/2; the negation gives -1/2
and the pending bump then lands the speed exactly on 0. -/
def c5Input3 : TickInput :=
  { events := []
    space_pressed := true
    random_angle := 3
    dt := 0
    order := [Sys.check, Sys.reverse, Sys.rotate, Sys.move] }

/-- C6: overlap-begin event and Space press in the same frame, with the
executor running reverse_rotate_direction before check_for_collision. -/
def c6InputB : TickInput :=
  { events := [CollisionEvent.Started 1 2]
    space_pressed := true
    random_angle := 1
    dt := 0
    order := [Sys.reverse, Sys.check, Sys.rotate, Sys.move] }

/-- C6: the same frame inputs with the executor running
check_for_collision before reverse_rotate_direction. -/
def c6InputA : TickInput :=
  { events := [CollisionEvent.Started 1 2]
    space_pressed := true
    random_angle := 1
    dt := 0
    order := [Sys.check, Sys.reverse, Sys.rotate, Sys.move] }

/-- A world already in the terminal phase, as after a failed commit. -/
def gameOverWorld : World :=
  { state := GameState.GameOver
    score := 3
    speed := -(5/2)
    intersecting := false
    targetAngle := 2
    needleAngle := 1
    pendingGameOver := false
    scoreChanged := false }

/-- A frame input thrown at the terminal world: events, input and rng draw
all present, none of which may have any effect. -/
def gameOverInput : TickInput :=
  { events := [CollisionEvent.Started 1 2, CollisionEvent.Stopped 1 2]
    space_pressed := true
    random_angle := 4
    dt := 1
    order := [Sys.check, Sys.reverse, Sys.rotate, Sys.move] }

/-! ## Claim theorems -/

/-- C9: check_for_collision leaves the overlap flag at its prior value on
an empty batch, and otherwise stores true exactly when the last event of
the batch is a collision start, the entity ids of every event being
ignored (the right-hand side inspects only the final constructor). -/
theorem c9_overlap_flag_last_event (w : World) (events : List CollisionEvent) :
    (check_for_collision events w).intersecting =
      (match events.getLast? with
       | none => w.intersecting
       | some (CollisionEvent.Started _ _) => true
       | some (CollisionEvent.Stopped _ _) => false) := by
  rw [check_for_collision]
  exact check_flag_eq events w.intersecting

/-- C4: once the State resource holds GameOver the phase never leaves it
and every modelled quantity (angular speed, Score, target orientation,
needle angle, overlap flag) is frozen for the rest of the run, and a tick
can only end in Playing if it began in Playing, so the transition from
Playing to GameOver happens at most once. -/
theorem c4_gameover_terminal (w : World) (h : w.state = GameState.GameOver)
    (inputs : List TickInput) :
    (run inputs w).state = GameState.GameOver ∧
    (run inputs w).speed = w.speed ∧
    (run inputs w).score = w.score ∧
    (run inputs w).targetAngle = w.targetAngle ∧
    (run inputs w).needleAngle = w.needleAngle ∧
    (run inputs w).intersecting = w.intersecting ∧
    (∀ (t : World) (i : TickInput),
      (tick i t).state = GameState.Playing → t.state = GameState.Playing) := by
  obtain ⟨h1, h2, h3, h4, h5, h6, h7⟩ := run_gameOver inputs w h
  refine ⟨h1, h3, h2, h5, h6, h4, ?_⟩
  intro t i ht
  by_cases hp : (apply_state_transition t).state = GameState.Playing
  · exact (apply_state_transition_playing t hp).1
  · rw [tick_not_playing i t hp] at ht
    exact absurd ht hp

/-- Witness for C4 at a concrete terminal world and a busy frame input. -/
theorem c4_witness :
    (run [gameOverInput] gameOverWorld).state = GameState.GameOver ∧
    (run [gameOverInput] gameOverWorld).speed = gameOverWorld.speed ∧
    (run [gameOverInput] gameOverWorld).score = gameOverWorld.score ∧
    (run [gameOverInput] gameOverWorld).targetAngle = gameOverWorld.targetAngle ∧
    (run [gameOverInput] gameOverWorld).needleAngle = gameOverWorld.needleAngle ∧
    (run [gameOverInput] gameOverWorld).intersecting = gameOverWorld.intersecting ∧
    (∀ (t : World) (i : TickInput),
      (tick i t).state = GameState.Playing → t.state = GameState.Playing) :=
  c4_gameover_terminal gameOverWorld rfl [gameOverInput]

/-- C10: with the State resource at GameOver, check_for_collision is gated
off by run_if, so the overlap flag keeps its last Playing-time value for
the remainder of the run, whatever collision events arrive. -/
theorem c10_gameover_freezes_overlap (w : World) (h : w.state = GameState.GameOver)
    (inputs : List TickInput) :
    (run inputs w).intersecting = w.intersecting ∧
    (run inputs w).state = GameState.GameOver := by
  obtain ⟨h1, _, _, h4, _, _, _⟩ := run_gameOver inputs w h
  exact ⟨h4, h1⟩

/-- Witness for C10: the terminal world keeps its overlap flag across two
frames full of collision events. -/
theorem c10_witness :
    (run [gameOverInput, gameOverInput] gameOverWorld).intersecting =
      gameOverWorld.intersecting ∧
    (run [gameOverInput, gameOverInput] gameOverWorld).state = GameState.GameOver :=
  c10_gameover_freezes_overlap gameOverWorld rfl [gameOverInput, gameOverInput]

/-- C3: within one frame (any executor order of the four systems) Score
never decreases and rises by at most one; it is untouched when the phase
is not Playing or Space is not pressed; while Playing with Space pressed
it rises by exactly one precisely when the frame queues no GameOver
transition (the success branch of reverse_rotate_direction); and across
any whole run Score is non-decreasing. -/
theorem c3_score_monotone_gated (w : World) (i : TickInput)
    (hord : i.order.Perm updateSystems) :
    w.score ≤ (tick i w).score ∧
    (tick i w).score ≤ w.score + 1 ∧
    ((apply_state_transition w).state = GameState.Playing → i.space_pressed = true →
      ((tick i w).score = w.score + 1 ↔ (tick i w).pendingGameOver = false)) ∧
    ((apply_state_transition w).state ≠ GameState.Playing ∨ i.space_pressed = false →
      (tick i w).score = w.score) ∧
    (∀ (t : World) (inputs : List TickInput), t.score ≤ (run inputs t).score) := by
  by_cases hp : (apply_state_transition w).state = GameState.Playing
  · obtain ⟨hwst, hpend, hasw⟩ := apply_state_transition_playing w hp
    rw [tick_playing i w hp, hasw]
    rw [hasw] at hpend
    cases hpress : i.space_pressed with
    | false =>
        obtain ⟨hs, hpd⟩ := runSystems_score_pending i i.order w (Or.inr hpress)
        refine ⟨le_of_eq hs.symm, ?_, ?_, fun _ => hs,
          fun t inputs => run_score_mono inputs t⟩
        · rw [hs]; omega
        · intro _ hpressT
          exact Bool.noConfusion hpressT
    | true =>
        obtain ⟨o1, o2, hsplit, h1, h2⟩ := perm_reverse_split i.order hord
        rw [hsplit]
        obtain ⟨hs, hpd⟩ := runSystems_commit i o1 o2 w h1 h2 hpend hpress
        cases hint : (runSystems i o1 w).intersecting with
        | true =>
            rw [hint] at hs hpd
            simp only [Bool.not_true] at hpd
            simp at hs
            refine ⟨?_, ?_, ?_, ?_, fun t inputs => run_score_mono inputs t⟩
            · rw [hs]; omega
            · rw [hs]
            · intro _ _
              rw [hs, hpd]
              simp
            · intro hcontra
              rcases hcontra with hc | hc
              · exact absurd hwst hc
              · exact Bool.noConfusion hc
        | false =>
            rw [hint] at hs hpd
            simp only [Bool.not_false] at hpd
            simp at hs
            refine ⟨le_of_eq hs.symm, ?_, ?_, fun _ => hs,
              fun t inputs => run_score_mono inputs t⟩
            · rw [hs]; omega
            · intro _ _
              rw [hs, hpd]
              constructor
              · intro habs
                exact absurd habs (by omega)
              · intro habs
                exact absurd habs (by simp)
  · rw [tick_not_playing i w hp, apply_state_transition_score w]
    refine ⟨le_refl _, by omega, ?_, fun _ => rfl,
      fun t inputs => run_score_mono inputs t⟩
    intro hplay _
    exact absurd hplay hp

/-- Witness for C3 at the initial world and a scoring frame. -/
theorem c3_witness :
    initialWorld.score ≤ (tick c1Input initialWorld).score ∧
    (tick c1Input initialWorld).score ≤ initialWorld.score + 1 ∧
    ((apply_state_transition initialWorld).state = GameState.Playing →
      c1Input.space_pressed = true →
      ((tick c1Input initialWorld).score = initialWorld.score + 1 ↔
        (tick c1Input initialWorld).pendingGameOver = false)) ∧
    ((apply_state_transition initialWorld).state ≠ GameState.Playing ∨
        c1Input.space_pressed = false →
      (tick c1Input initialWorld).score = initialWorld.score) ∧
    (∀ (t : World) (inputs : List TickInput), t.score ≤ (run inputs t).score) :=
  c3_score_monotone_gated initialWorld c1Input (by decide)

end SpinnyLock

namespace SpinnyLock

/-- Counterexample to C2 as stated: on the very first Update frame the
Score resource counts as changed merely because it was just inserted, so
move_anulus_segment relocates the target although Score was not
incremented (no Space press at all): the orientation moves from 0 to the
rng draw 1 in a frame whose Score stays 0. -/
theorem c2_counterexample :
    c2Input.space_pressed = false ∧
    c2Input.order.Perm updateSystems ∧
    (tick c2Input initialWorld).score = initialWorld.score ∧
    initialWorld.targetAngle = 0 ∧
    (tick c2Input initialWorld).targetAngle = 1 := by
  refine ⟨rfl, by decide, ?_, rfl, ?_⟩ <;>
    norm_num [tick, c2Input, initialWorld, apply_state_transition, runSystems, runSys,
      check_for_collision, reverse_rotate_direction, rotate_line, move_anulus_segment]

/-- C2 amended: apart from the startup frame (where the fresh insertion of
the Score resource makes change detection fire once), the target's
orientation is untouched by any frame that neither carries a pending
score-change marker nor increments Score; whenever the orientation does
change it is set to the frame's rng draw, which gen_range confines to the
half-open interval from 0 to two times the f32 pi constant. -/
theorem c2_target_relocation :
    (∀ (w : World) (i : TickInput), w.scoreChanged = false →
      (tick i w).score = w.score → (tick i w).targetAngle = w.targetAngle) ∧
    (∀ (w : World) (i : TickInput), (tick i w).targetAngle ≠ w.targetAngle →
      (tick i w).targetAngle = i.random_angle) ∧
    (∀ (w : World) (i : TickInput), gen_range_ok i.random_angle →
      (tick i w).targetAngle ≠ w.targetAngle →
      gen_range_ok ((tick i w).targetAngle)) := by
  have hpart2 : ∀ (w : World) (i : TickInput),
      (tick i w).targetAngle ≠ w.targetAngle →
      (tick i w).targetAngle = i.random_angle := by
    intro w i hne
    by_cases hp : (apply_state_transition w).state = GameState.Playing
    · obtain ⟨_, _, hasw⟩ := apply_state_transition_playing w hp
      rw [tick_playing i w hp, hasw] at hne ⊢
      rcases runSystems_targetAngle_or i i.order w with h | h
      · exact absurd h hne
      · exact h
    · rw [tick_not_playing i w hp, apply_state_transition_targetAngle] at hne
      exact absurd rfl hne
  refine ⟨?_, hpart2, ?_⟩
  · intro w i hflag hscore
    by_cases hp : (apply_state_transition w).state = GameState.Playing
    · obtain ⟨_, _, hasw⟩ := apply_state_transition_playing w hp
      rw [tick_playing i w hp, hasw] at hscore ⊢
      exact runSystems_targetAngle_frozen i i.order w hflag hscore
    · rw [tick_not_playing i w hp]
      exact apply_state_transition_targetAngle w
  · intro w i hok hne
    rw [hpart2 w i hne]
    exact hok

/-- Witness for C2 amended: a quiet frame with the marker clear keeps the
target in place, and the startup relocation lands inside the gen_range
interval. -/
theorem c2_witness :
    (tick c2bInput c2bWorld).targetAngle = c2bWorld.targetAngle ∧
    gen_range_ok ((tick c2Input initialWorld).targetAngle) := by
  constructor
  · exact c2_target_relocation.1 c2bWorld c2bInput rfl
      (by norm_num [tick, c2bInput, c2bWorld, initialWorld, apply_state_transition,
        runSystems, runSys, check_for_collision, reverse_rotate_direction, rotate_line,
        move_anulus_segment])
  · exact c2_target_relocation.2.2 initialWorld c2Input
      (by norm_num [gen_range_ok, PI32, c2Input])
      (by norm_num [tick, c2Input, initialWorld, apply_state_transition, runSystems,
        runSys, check_for_collision, reverse_rotate_direction, rotate_line,
        move_anulus_segment])

/-- Counterexample to C5 as stated: a reachable three-frame play from
startup ends a commit frame with angular speed exactly 0.  Before the
third frame the speed is 1/2 (positive) and the phase is Playing; the
third frame is a commit (Space pressed, a legitimate executor order), yet
the resulting speed is 0, not negative: its sign did not flip, because the
0.5 bump of move_anulus_segment cancelled the negation in the same frame. -/
theorem c5_counterexample :
    (run [c5Input1, c5Input2] initialWorld).state = GameState.Playing ∧
    0 < (run [c5Input1, c5Input2] initialWorld).speed ∧
    c5Input3.space_pressed = true ∧
    c5Input3.order.Perm updateSystems ∧
    (run [c5Input1, c5Input2, c5Input3] initialWorld).speed = 0 := by
  refine ⟨?_, ?_, rfl, by decide, ?_⟩ <;>
    norm_num [run, tick, c5Input1, c5Input2, c5Input3, initialWorld,
      apply_state_transition, runSystems, runSys, check_for_collision,
      reverse_rotate_direction, rotate_line, move_anulus_segment]

/-- C5 amended: reverse_rotate_direction on a pressed commit replaces the
angular speed by its negation exactly once, in both overlap branches, so
the sign flips whenever the speed is nonzero at that moment; and any
executor order of the frame contains exactly one run of
reverse_rotate_direction.  (The tick-level sign can still fail to flip:
the speed can reach 0, as the counterexample shows.) -/
theorem c5_commit_negates_speed :
    (∀ w : World, (reverse_rotate_direction true w).speed = -w.speed) ∧
    (∀ w : World, 0 < w.speed → (reverse_rotate_direction true w).speed < 0) ∧
    (∀ w : World, w.speed < 0 → 0 < (reverse_rotate_direction true w).speed) ∧
    (∀ o : List Sys, o.Perm updateSystems → o.count Sys.reverse = 1) := by
  have hneg : ∀ w : World, (reverse_rotate_direction true w).speed = -w.speed := by
    intro w
    rw [reverse_speed_eq]
    simp
  refine ⟨hneg, ?_, ?_, ?_⟩
  · intro w h
    rw [hneg]
    linarith
  · intro w h
    rw [hneg]
    linarith
  · intro o ho
    rw [ho.count_eq]
    decide

/-- Witness for C5 amended at concrete worlds of both speed signs. -/
theorem c5_witness :
    (reverse_rotate_direction true initialWorld).speed = -initialWorld.speed ∧
    (0 : ℚ) < initialWorld.speed ∧
    (reverse_rotate_direction true initialWorld).speed < 0 ∧
    gameOverWorld.speed < 0 ∧
    0 < (reverse_rotate_direction true gameOverWorld).speed ∧
    c5Input1.order.count Sys.reverse = 1 :=
  ⟨c5_commit_negates_speed.1 initialWorld,
   by norm_num [initialWorld],
   c5_commit_negates_speed.2.1 initialWorld (by norm_num [initialWorld]),
   by norm_num [gameOverWorld],
   c5_commit_negates_speed.2.2.1 gameOverWorld (by norm_num [gameOverWorld]),
   c5_commit_negates_speed.2.2.2 c5Input1.order (by decide)⟩

end SpinnyLock

namespace SpinnyLock

/-- Counterexample to C6 as stated: the source puts the four Update
systems in a plain tuple with no chain/before/after constraint, so no
intra-frame order is fixed.  With the same frame inputs (overlap-begin
event plus Space press, from startup), the order where
reverse_rotate_direction runs before check_for_collision decides the
commit on the stale flag: although this frame's events set the stored
flag to true, the frame scores nothing and queues GameOver, while the
opposite order scores.  The claimed fixed ordering is therefore not a
property of the program. -/
theorem c6_counterexample :
    c6InputB.order.Perm updateSystems ∧
    c6InputB.space_pressed = true ∧
    (apply_state_transition initialWorld).state = GameState.Playing ∧
    (check_for_collision c6InputB.events initialWorld).intersecting = true ∧
    (tick c6InputB initialWorld).score = initialWorld.score ∧
    (tick c6InputB initialWorld).pendingGameOver = true ∧
    c6InputA.events = c6InputB.events ∧
    c6InputA.space_pressed = c6InputB.space_pressed ∧
    c6InputA.order.Perm updateSystems ∧
    (tick c6InputA initialWorld).score = initialWorld.score + 1 := by
  refine ⟨by decide, rfl, rfl, rfl, ?_, ?_, rfl, rfl, by decide, ?_⟩ <;>
    norm_num [tick, c6InputA, c6InputB, initialWorld, apply_state_transition,
      runSystems, runSys, check_for_collision, reverse_rotate_direction, rotate_line,
      move_anulus_segment]

/-- C6 amended: the commit decision reads whichever overlap value is
stored at the moment reverse_rotate_direction happens to run.  If the
executor runs check_for_collision first, the decision sees the flag after
this frame's collision events; if it runs reverse_rotate_direction first,
the decision sees the value left by the previous frame.  Both orders are
allowed by the source, which constrains the order of the four systems in
no way. -/
theorem c6_commit_reads_stored_flag (w : World) (i : TickInput)
    (hplay : (apply_state_transition w).state = GameState.Playing)
    (hp : i.space_pressed = true) :
    (i.order = [Sys.check, Sys.reverse, Sys.rotate, Sys.move] →
      ((tick i w).score = w.score + 1 ↔
        (check_for_collision i.events w).intersecting = true)) ∧
    (i.order = [Sys.reverse, Sys.check, Sys.rotate, Sys.move] →
      ((tick i w).score = w.score + 1 ↔ w.intersecting = true)) := by
  obtain ⟨hwst, hpend, hasw⟩ := apply_state_transition_playing w hplay
  rw [tick_playing i w hplay, hasw]
  rw [hasw] at hpend
  constructor
  · intro hord
    have hsplit : i.order = [Sys.check] ++ Sys.reverse :: [Sys.rotate, Sys.move] := hord
    rw [hsplit]
    obtain ⟨hs, _⟩ := runSystems_commit i [Sys.check] [Sys.rotate, Sys.move] w
      (by decide) (by decide) hpend hp
    rw [hs]
    have hrw : runSystems i [Sys.check] w = check_for_collision i.events w := rfl
    rw [hrw]
    cases hcf : (check_for_collision i.events w).intersecting with
    | true => simp
    | false =>
        simp only [Bool.false_eq_true, if_false]
        constructor
        · intro habs
          exact absurd habs (by omega)
        · intro habs
          exact absurd habs (by simp)
  · intro hord
    have hsplit : i.order = [] ++ Sys.reverse :: [Sys.check, Sys.rotate, Sys.move] := hord
    rw [hsplit]
    obtain ⟨hs, _⟩ := runSystems_commit i [] [Sys.check, Sys.rotate, Sys.move] w
      (by decide) (by decide) hpend hp
    rw [hs]
    have hrw : runSystems i [] w = w := rfl
    rw [hrw]
    cases hcf : w.intersecting with
    | true => simp
    | false =>
        simp only [Bool.false_eq_true, if_false]
        constructor
        · intro habs
          exact absurd habs (by omega)
        · intro habs
          exact absurd habs (by simp)

/-- Witness for C6 amended at the initial world and the two exhibited
executor orders. -/
theorem c6_witness :
    (c6InputA.order = [Sys.check, Sys.reverse, Sys.rotate, Sys.move] →
      ((tick c6InputA initialWorld).score = initialWorld.score + 1 ↔
        (check_for_collision c6InputA.events initialWorld).intersecting = true)) ∧
    (c6InputA.order = [Sys.reverse, Sys.check, Sys.rotate, Sys.move] →
      ((tick c6InputA initialWorld).score = initialWorld.score + 1 ↔
        initialWorld.intersecting = true)) :=
  c6_commit_reads_stored_flag initialWorld c6InputA rfl rfl

end SpinnyLock

namespace SpinnyLock

/-- C7: for any tessellation resolution N of at least 1 (and any nonzero
angular half-width, which influences positions only), the builder emits
exactly 2(N+1) vertices and 2N triangles (6N indices chunked in threes),
every index below the vertex count; in particular the target wedge
(resolution 5) has 12 vertices, 10 triangles and indices below 12, and the
needle quad of create_rotating_line has 4 vertices, 2 triangles and
indices below 4. -/
theorem c7_geometry_counts (sin cos : ℚ → ℚ) (N : Nat) (hN : 1 ≤ N)
    (start_angle angle_increment r_inner r_outer : ℚ)
    (radius_extend : ℚ) (hspan : radius_extend ≠ 0) :
    (annulus_segment_vertices sin cos N start_angle angle_increment
      r_inner r_outer).length = 2 * (N + 1) ∧
    triangle_count (annulus_segment_indices N) = 2 * N ∧
    (∀ j ∈ annulus_segment_indices N, j < 2 * (N + 1)) ∧
    (∃ verts idx, create_annulus_segment sin cos 5 radius_extend = some (verts, idx) ∧
      verts.length = 12 ∧ triangle_count idx = 10 ∧ ∀ j ∈ idx, j < 12) ∧
    (rotating_line_vertices sin cos).length = 4 ∧
    triangle_count rotating_line_indices = 2 ∧
    (∀ j ∈ rotating_line_indices, j < 4) := by
  refine ⟨annulus_segment_vertices_length sin cos N start_angle angle_increment
      r_inner r_outer, ?_, annulus_segment_indices_bound N hN, ?_, ?_, rfl, ?_⟩
  · rw [triangle_count, annulus_segment_indices_length N hN]
    omega
  · refine ⟨_, _, rfl, ?_, ?_, ?_⟩
    · rw [annulus_segment_vertices_length]
    · rw [triangle_count, annulus_segment_indices_length 5 (by norm_num)]
    · intro j hj
      have hb := annulus_segment_indices_bound 5 (by norm_num) j hj
      omega
  · rfl
  · intro j hj
    fin_cases hj <;> norm_num

/-- Witness for C7 at resolution 5 with the span of the source. -/
theorem c7_witness :
    (annulus_segment_vertices (fun _ => 0) (fun _ => 1) 5 0 1 43 52).length = 2 * (5 + 1) ∧
    triangle_count (annulus_segment_indices 5) = 2 * 5 ∧
    (∀ j ∈ annulus_segment_indices 5, j < 2 * (5 + 1)) ∧
    (∃ verts idx,
      create_annulus_segment (fun _ => 0) (fun _ => 1) 5 25 = some (verts, idx) ∧
      verts.length = 12 ∧ triangle_count idx = 10 ∧ ∀ j ∈ idx, j < 12) ∧
    (rotating_line_vertices (fun _ => 0) (fun _ => 1)).length = 4 ∧
    triangle_count rotating_line_indices = 2 ∧
    (∀ j ∈ rotating_line_indices, j < 4) :=
  c7_geometry_counts (fun _ => 0) (fun _ => 1) 5 (by norm_num) 0 1 43 52 25 (by norm_num)

/-- Counterexample to C8 as stated: a zero angular span is not rejected.
create_annulus_segment with radius_extend 0 builds the usual 12 vertices
and 10 triangles (all collapsed onto one ray) and returns them to be
spawned; no InvalidGeometry error exists anywhere in the program. -/
theorem c8_counterexample :
    (create_annulus_segment (fun _ => 0) (fun _ => 1) 5 0).isSome = true ∧
    ((create_annulus_segment (fun _ => 0) (fun _ => 1) 5 0).map
      (fun g => (g.1.length, triangle_count g.2))) = some (12, 10) := by
  constructor
  · rfl
  · rfl

/-- C8 amended: the source validates neither the resolution nor the span.
For every resolution of at least 1 construction succeeds whatever the
span, zero included; the hardcoded call sites use resolution 5 (target)
and the fixed needle quad; a resolution of 0 would be an arithmetic
underflow of the u32 index-loop bound, aborting the process, not a
reported InvalidGeometry error. -/
theorem c8_no_validation :
    (∀ (sin cos : ℚ → ℚ) (resolution : Nat) (radius_extend : ℚ),
      1 ≤ resolution →
      (create_annulus_segment sin cos resolution radius_extend).isSome = true) ∧
    (∀ (sin cos : ℚ → ℚ) (radius_extend : ℚ),
      create_annulus_segment sin cos 0 radius_extend = none) := by
  constructor
  · intro sin cos resolution radius_extend h
    rw [create_annulus_segment, if_neg (by omega)]
    rfl
  · intro sin cos radius_extend
    rfl

/-- Witness for C8 amended: resolution 7 with zero span still succeeds. -/
theorem c8_witness :
    (create_annulus_segment (fun _ => 0) (fun _ => 1) 7 0).isSome = true :=
  c8_no_validation.1 (fun _ => 0) (fun _ => 1) 7 0 (by norm_num)

/-- C1 is contradicted by the code: on the very first commit from startup
(speed 1.0, overlap present, Space pressed, a legitimate executor order),
the frame scores, reverse_rotate_direction negates the speed to -1.0, and
move_anulus_segment then adds 0.5 to the signed value (-1.0 is below
10.0), ending the frame at -0.5.  The angular-speed magnitude after this
successful score is 1/2, strictly below the prior magnitude 1, where the
claim demands it increase to 3/2.  The signed comparison with 10.0 means
the intended difficulty ramp never happens once the sign alternates. -/
theorem c1_code_eval :
    (apply_state_transition initialWorld).state = GameState.Playing ∧
    c1Input.space_pressed = true ∧
    c1Input.order.Perm updateSystems ∧
    (tick c1Input initialWorld).score = initialWorld.score + 1 ∧
    initialWorld.speed = 1 ∧
    (tick c1Input initialWorld).speed = -(1/2) ∧
    |(tick c1Input initialWorld).speed| < |initialWorld.speed| := by
  refine ⟨rfl, rfl, by decide, ?_, rfl, ?_, ?_⟩ <;>
    norm_num [tick, c1Input, initialWorld, apply_state_transition, runSystems, runSys,
      check_for_collision, reverse_rotate_direction, rotate_line, move_anulus_segment,
      abs]

end SpinnyLock
